import Mathlib

/-!
# WenKey 2.0 — verification of the tenant-selection and dashboard aggregation pipeline

Shallow embedding of the OKR dashboard application's core logic:
company/tenant visibility and selection reconciliation
(`src/components/CompanySelector.tsx`, `src/components/CompanySelectionModal.tsx`,
`src/contexts/CompanyContext.tsx`), session teardown (`src/contexts/AuthContext.tsx`),
the performance-history company list (`src/pages/PerformanceHistory.tsx`) and the
dashboard aggregation engine (`src/pages/Dashboard.tsx`).  The repository also
carries earlier revisions of the same components; where two revisions disagree
the embedding includes both, each annotated with its origin.

Modelling conventions: backend numeric columns (percentages) are rationals,
timestamps and ISO dates are naturals (ISO date strings compare lexicographically,
order-isomorphic to chronology), row ids are naturals.  JavaScript `Math.round`
is half-up rounding `⌊x + 1/2⌋`; `String.prototype.trim` strips whitespace from
both ends; `Array.prototype.sort` is a stable sort, modelled by insertion sort.
-/

/-- JavaScript `Math.round`: round half up, `⌊x + 1/2⌋`. -/
def jsRound (x : ℚ) : ℤ := ⌊x + 1/2⌋

/-- JavaScript `String.prototype.trim`: strip leading and trailing whitespace. -/
def jsTrim (s : String) : String :=
  ⟨((s.data.dropWhile Char.isWhitespace).reverse.dropWhile Char.isWhitespace).reverse⟩

/-! ## Tenant data model and visibility (`CompanySelector`, `CompanySelectionModal`,
`PerformanceHistory`) -/

/-- A `companies` row: `id`, `name`, `is_active`. -/
structure Company where
  id : Nat
  name : String
  isActive : Bool
  deriving DecidableEq, Repr

/-- A `company_members` row: membership of a user in a company. -/
structure CompanyMember where
  userId : Nat
  companyId : Nat
  deriving DecidableEq, Repr

/-- Permission tier resolved by `useUserRole` from `profiles.permission_type`. -/
inductive Role where
  | user
  | manager
  | admin
  deriving DecidableEq, Repr

/-- Company-name ordering used by the company lists (`.order('name')` server-side,
`localeCompare` client-side). -/
def nameLe (a b : Company) : Prop := a.name ≤ b.name

instance : DecidableRel nameLe := fun a b => inferInstanceAs (Decidable (a.name ≤ b.name))

/-- The visible-company list computed by `CompanySelector.fetchCompanies`
(identical queries in every revision of the component): admins see all
companies with `is_active = true` ordered by name; other roles see the
companies of their own memberships, filtered to `is_active` and sorted by name. -/
def fetchCompanies (companies : List Company) (members : List CompanyMember)
    (role : Role) (uid : Nat) : List Company :=
  if role = .admin then
    List.insertionSort nameLe (companies.filter (·.isActive))
  else
    let joined := (members.filter (fun m => m.userId == uid)).filterMap
      (fun m => companies.find? (fun c => c.id == m.companyId))
    List.insertionSort nameLe (joined.filter (·.isActive))

/-- The company list fetched by `CompanySelectionModal` (the admin
explicit-choice modal): all companies with `is_active = true`, ordered by name. -/
def modalCompanies (companies : List Company) : List Company :=
  List.insertionSort nameLe (companies.filter (·.isActive))

/-- The company list fetched by `PerformanceHistory.loadCompanies` for the
admin company filter: `select id, name … order by name` — note that no
`is_active` filter is applied there. -/
def loadCompaniesHistory (companies : List Company) : List Company :=
  List.insertionSort nameLe companies

/-- Selection reconciliation of `CompanySelector.fetchCompanies` (final revision,
the one consistent with the current `CompanyContext`; `src/unnamed/part_000`
lines 409–437): when the fetched list is empty nothing is updated; when the
previous selection is found by id in the list its cached name is refreshed;
when it is absent, non-admins are auto-assigned the first company of the list
while admins are left untouched (the previous selection, possibly stale,
remains). -/
def reconcileSelection (role : Role) (companyList : List Company)
    (prev : Option Company) : Option Company :=
  match companyList with
  | [] => prev
  | first :: _ =>
    match prev with
    | some sc =>
      match companyList.find? (fun c => c.id == sc.id) with
      | some cur => if cur.name ≠ sc.name then some cur else some sc
      | none => if role = .admin then some sc else some first
    | none => if role = .admin then none else some first

/-- Selection reconciliation of the legacy `src/components/CompanySelector.tsx`
revision (lines 58–69): reads the current id from storage and auto-selects the
first fetched company whenever the stored id is missing or not in the list,
with no role guard. -/
def reconcileSelectionLegacy (companyList : List Company)
    (prevId : Option Nat) : Option Nat :=
  let hasCurrentValid : Bool := match prevId with
    | some cid => companyList.any (fun c => c.id == cid)
    | none => false
  if hasCurrentValid then prevId
  else
    match companyList with
    | [] => prevId
    | first :: _ => some first.id

/-- Local state of the `CompanySelector` component together with the
session-scoped marker (`sessionStorage['admin_session_started']`). -/
structure SelectorCtx where
  selected : Option Company
  markerSet : Bool
  hasInitialized : Bool
  deriving DecidableEq, Repr

/-- The fresh-admin-session effect of `CompanySelector` (`src/unnamed/part_000`
lines 359–373): runs once per mount (guarded by `hasInitialized`); if the role
is admin and a company is selected but the session marker is unset, the
selection is cleared and the marker is set. -/
def freshSessionInit (role : Role) (st : SelectorCtx) : SelectorCtx :=
  if st.hasInitialized then st
  else
    let st' :=
      if role = .admin ∧ st.selected.isSome then
        if ¬st.markerSet then { st with selected := none, markerSet := true } else st
      else st
    { st' with hasInitialized := true }

/-! ## Session teardown (`AuthContext.signOut`) -/

/-- Client-side state touched by `AuthContext`: identity, profile and session,
the two durable storage keys, the session-scoped storage, and the pending
navigation target. -/
structure AuthState where
  user : Option Nat
  profile : Option Nat
  session : Option Nat
  localStorage : List (String × String)
  sessionStorage : List (String × String)
  navTarget : Option String
  deriving DecidableEq, Repr

/-- Removal of a key from a web-storage key/value map. -/
def storeRemove (store : List (String × String)) (key : String) :
    List (String × String) :=
  store.filter (fun kv => kv.1 ≠ key)

/-- Lookup of a key in a web-storage key/value map. -/
def storeGet : List (String × String) → String → Option String
  | [], _ => none
  | kv :: rest, key => if kv.1 = key then some kv.2 else storeGet rest key

/-- The `signOut` function of `AuthContext` (lines 188–210): the remote
`supabase.auth.signOut()` call sits in a `try` whose `catch` only logs, and the
`finally` block unconditionally clears profile, session and user, removes the
`selectedCompanyId` and `selectedCompany` storage keys, clears the
session-scoped storage, and navigates to `/auth`.  `remoteFails` records
whether the remote call threw; the caught exception has no local effect. -/
def signOut (st : AuthState) (remoteFails : Bool) : AuthState :=
  { st with
    user := none
    profile := none
    session := none
    localStorage := storeRemove (storeRemove st.localStorage "selectedCompanyId")
      "selectedCompany"
    sessionStorage := []
    navTarget := some "/auth" }

/-! ## Dashboard data model (`Dashboard.tsx`) -/

/-- An `objectives` row. -/
structure Objective where
  id : Nat
  companyId : Nat
  quarterId : Nat
  userId : Nat
  title : String
  archived : Bool
  percentObj : Option ℚ
  deriving DecidableEq, Repr

/-- A `key_results` row. -/
structure KeyResult where
  id : Nat
  objectiveId : Nat
  companyId : Nat
  quarterId : Nat
  userId : Nat
  percentKr : Option ℚ
  deriving DecidableEq, Repr

/-- A `kr_checkins` row: immutable attainment event for a key result. -/
structure Checkin where
  keyResultId : Nat
  companyId : Nat
  attainmentPct : Option ℚ
  createdAt : Nat
  deriving DecidableEq, Repr

/-- A `quarters` row. -/
structure QuarterRow where
  id : Nat
  companyId : Nat
  name : String
  startDate : Nat
  endDate : Nat
  isActive : Bool
  deriving DecidableEq, Repr

/-- A `quarter_results` row: finalized percentage for a (company, user, quarter). -/
structure QuarterResultRow where
  companyId : Nat
  userId : Nat
  quarterId : Nat
  resultPercent : Option ℚ
  deriving DecidableEq, Repr

/-- The backend record collections read by the dashboard. -/
structure Db where
  objectives : List Objective
  keyResults : List KeyResult
  checkins : List Checkin
  quarterResults : List QuarterResultRow
  deriving DecidableEq, Repr

/-! ## Current-progress computation (`calculateQuarterProgress`,
`Dashboard.tsx` lines 86–140) -/

/-- Filter applied by the objectives query of `calculateQuarterProgress`:
company, quarter, and optionally the user. -/
def objMatches (c q : Nat) (u : Option Nat) (o : Objective) : Bool :=
  o.companyId == c && o.quarterId == q &&
    (match u with
     | some uid => o.userId == uid
     | none => true)

/-- Objectives returned by the first query of `calculateQuarterProgress`. -/
def qualifyingObjectives (db : Db) (c q : Nat) (u : Option Nat) : List Objective :=
  db.objectives.filter (objMatches c q u)

/-- Key results returned by the second query: `objective_id` in the fetched
objective ids. -/
def qualifyingKRs (db : Db) (c q : Nat) (u : Option Nat) : List KeyResult :=
  db.keyResults.filter
    (fun kr => ((qualifyingObjectives db c q u).map (·.id)).contains kr.objectiveId)

/-- Check-ins returned by the third query: company scoped and `key_result_id`
in the fetched key-result ids. -/
def scopedCheckins (db : Db) (c : Nat) (krIds : List Nat) : List Checkin :=
  db.checkins.filter (fun ci => ci.companyId == c && krIds.contains ci.keyResultId)

/-- First element of a stable descending-by-`created_at` sort, i.e. the
earliest-positioned check-in with maximal timestamp — exactly
`krCheckins.sort((a, b) => time(b) - time(a))[0]` in the source. -/
def latestCheckin : List Checkin → Option Checkin
  | [] => none
  | ci :: cs =>
    match latestCheckin cs with
    | none => some ci
    | some best => if best.createdAt > ci.createdAt then some best else some ci

/-- Per-key-result contribution of the loop body in `calculateQuarterProgress`:
the latest check-in's attainment when it exists and is non-null, nothing
otherwise. -/
def krContribution (checkins : List Checkin) (krId : Nat) : Option ℚ :=
  (latestCheckin (checkins.filter (fun ci => ci.keyResultId == krId))).bind
    Checkin.attainmentPct

/-- The `lastAttainments` array accumulated by `calculateQuarterProgress`. -/
def lastAttainments (db : Db) (c q : Nat) (u : Option Nat) : List ℚ :=
  (qualifyingKRs db c q u).filterMap
    (fun kr =>
      krContribution (scopedCheckins db c ((qualifyingKRs db c q u).map (·.id))) kr.id)

/-- The per-user current-progress computation `calculateQuarterProgress`
(`Dashboard.tsx` lines 86–140): early return 0 when objectives, key results or
check-ins are missing; otherwise the half-up-rounded mean of the latest
non-null attainment per key result, or 0 when no key result contributes. -/
def calculateQuarterProgress (db : Db) (c q : Nat) (u : Option Nat) : ℤ :=
  if (qualifyingObjectives db c q u).isEmpty then 0
  else if (qualifyingKRs db c q u).isEmpty then 0
  else if (scopedCheckins db c ((qualifyingKRs db c q u).map (·.id))).isEmpty then 0
  else
    let vals := lastAttainments db c q u
    if vals.isEmpty then 0 else jsRound (vals.sum / vals.length)

/-- All check-ins of one key result in one company, in row order. -/
def krCheckins (db : Db) (c krId : Nat) : List Checkin :=
  db.checkins.filter (fun ci => ci.companyId == c && ci.keyResultId == krId)

/-- Modelled from the spec (§4.4 "Per-user current progress"): for each key
result under the qualifying objectives, take the check-in with the latest
timestamp and its attainment value, ignoring key results with no check-ins;
return the half-up-rounded arithmetic mean of those values, or 0 when there
are no qualifying key results or check-ins. -/
def specCurrentProgress (db : Db) (c q : Nat) (u : Option Nat) : ℤ :=
  let krsWith := (qualifyingKRs db c q u).filter
    (fun kr => !(krCheckins db c kr.id).isEmpty)
  let vals := krsWith.map
    (fun kr => ((latestCheckin (krCheckins db c kr.id)).bind Checkin.attainmentPct).getD 0)
  if vals.isEmpty then 0 else jsRound (vals.sum / vals.length)

/-! ## Quarter classification and performance history
(`calculateQuarterPerformanceFromResults`, `Dashboard.tsx` lines 142–187) -/

/-- Classification of a quarter relative to today, as computed at the top of
the loop body. -/
inductive QStatus where
  | current
  | finished
  | future
  deriving DecidableEq, Repr

/-- The `AppState` assembled by `loadBasicData`. -/
structure AppState where
  companyId : Nat
  userId : Nat
  quarters : List QuarterRow
  activeQuarter : Option QuarterRow
  deriving DecidableEq, Repr

/-- The `quarter_results … maybeSingle()` lookup: the row when exactly one
matches the (company, user, quarter) filter, `null` otherwise (zero rows, or
the multiple-row error destructured to `data: null`). -/
def findQuarterResult (db : Db) (c u qid : Nat) : Option QuarterResultRow :=
  match db.quarterResults.filter
      (fun r => r.companyId == c && r.userId == u && r.quarterId == qid) with
  | [r] => some r
  | _ => none

/-- Status assignment of the loop body: `future` by default, `current` when
today is within the inclusive range, else `finished` when today is past the
end date. -/
def quarterStatus (today : Nat) (q : QuarterRow) : QStatus :=
  if q.startDate ≤ today ∧ today ≤ q.endDate then .current
  else if today > q.endDate then .finished
  else .future

/-- One entry of the dashboard's quarter-performance list. -/
structure QuarterPerf where
  quarterId : Nat
  quarterName : String
  resultPct : ℤ
  isActive : Bool
  status : QStatus
  deriving DecidableEq, Repr

/-- One iteration of `calculateQuarterPerformanceFromResults`: per-user view
(`userId` set) uses the quarter-result override when a row with a non-null
percentage exists, else the check-in computation — but only for the `current`
quarter, 0 otherwise; the aggregate view (`userId` null) always uses the
check-in computation. -/
def perfForQuarter (db : Db) (state : AppState) (userId : Option Nat)
    (today : Nat) (q : QuarterRow) : QuarterPerf :=
  let status := quarterStatus today q
  let pct : ℤ :=
    match userId with
    | some uid =>
      match (findQuarterResult db state.companyId uid q.id).bind
          QuarterResultRow.resultPercent with
      | some v => jsRound v
      | none =>
        if status = .current then
          calculateQuarterProgress db state.companyId q.id (some uid)
        else 0
    | none => calculateQuarterProgress db state.companyId q.id none
  { quarterId := q.id
    quarterName := q.name
    resultPct := pct
    isActive := state.activeQuarter.map (·.id) == some q.id
    status := status }

/-- The full `calculateQuarterPerformanceFromResults` loop over
`state.quarters`. -/
def calculateQuarterPerformanceFromResults (db : Db) (state : AppState)
    (userId : Option Nat) (today : Nat) : List QuarterPerf :=
  state.quarters.map (perfForQuarter db state userId today)

/-- The headline "Média do Quarter" computation of `loadRoleDependentData`
(`Dashboard.tsx` lines 411–450): non-admins use the quarter-result override
for the active quarter, falling back to the check-in computation; admins
average all non-null quarter results of the active quarter, 0 when none. -/
def dashboardHeadlineProgress (db : Db) (c : Nat) (role : Role) (uid : Nat)
    (activeQid : Nat) : ℤ :=
  if role ≠ .admin then
    match (findQuarterResult db c uid activeQid).bind QuarterResultRow.resultPercent with
    | some v => jsRound v
    | none => calculateQuarterProgress db c activeQid (some uid)
  else
    let valid := (db.quarterResults.filter
      (fun r => r.companyId == c && r.quarterId == activeQid)).filterMap
        QuarterResultRow.resultPercent
    if valid.isEmpty then 0 else jsRound (valid.sum / valid.length)

/-! ## Effective-quarter selection (`loadBasicData`, `Dashboard.tsx`
lines 338–361) -/

/-- Descending ordering on quarter start dates (`.order('start_date',
{ ascending: false })`). -/
def startDateDesc (a b : QuarterRow) : Prop := b.startDate ≤ a.startDate

instance : DecidableRel startDateDesc :=
  fun a b => inferInstanceAs (Decidable (b.startDate ≤ a.startDate))

instance : IsTotal QuarterRow startDateDesc :=
  ⟨fun a b => Nat.le_total b.startDate a.startDate⟩

instance : IsTrans QuarterRow startDateDesc :=
  ⟨fun _ _ _ hab hbc => Nat.le_trans hbc hab⟩

/-- The quarters query of `loadBasicData`: the tenant's quarters ordered by
start date, most recent first. -/
def fetchQuartersSorted (quarters : List QuarterRow) (c : Nat) : List QuarterRow :=
  List.insertionSort startDateDesc (quarters.filter (fun q => q.companyId == c))

/-- Effective ("active") quarter selection of `loadBasicData`: the first
fetched quarter whose inclusive date range contains today, else the first
element of the descending-by-start-date list. -/
def effectiveQuarter (quarters : List QuarterRow) (c : Nat) (today : Nat) :
    Option QuarterRow :=
  match (fetchQuartersSorted quarters c).find?
      (fun q => q.startDate ≤ today && today ≤ q.endDate) with
  | some q => some q
  | none => (fetchQuartersSorted quarters c).head?

/-! ## Objective rollups (`calculateObjectiveRankings`) -/

/-- Key results nested under one objective (the `key_results (…)` embedded
select). -/
def krsOfObjective (db : Db) (oid : Nat) : List KeyResult :=
  db.keyResults.filter (fun kr => kr.objectiveId == oid)

/-- Objectives of (company, quarter) with `archived = false`, optionally
filtered by user. -/
def nonArchivedObjectives (db : Db) (c q : Nat) (u : Option Nat) : List Objective :=
  db.objectives.filter (fun o => objMatches c q u o && !o.archived)

/-- One row of the dashboard's objective ranking. -/
structure ObjectiveRanking where
  objectiveTitle : String
  resultPct : ℤ
  deriving DecidableEq, Repr

/-- Descending ordering on ranking percentages (`sort((a, b) =>
b.result_pct - a.result_pct)`). -/
def rankingDesc (a b : ObjectiveRanking) : Prop := b.resultPct ≤ a.resultPct

instance : DecidableRel rankingDesc :=
  fun a b => inferInstanceAs (Decidable (b.resultPct ≤ a.resultPct))

instance : IsTotal ObjectiveRanking rankingDesc :=
  ⟨fun a b => le_total b.resultPct a.resultPct⟩

instance : IsTrans ObjectiveRanking rankingDesc :=
  ⟨fun _ _ _ hab hbc => le_trans hbc hab⟩

/-- The `calculateObjectiveRankings` of the current `src/pages/Dashboard.tsx`
(lines 246–285): one row per non-archived objective — no grouping — whose
percentage is the rounded mean of the objective's key-result cached
percentages when any are non-null, else its own cached percentage; zero rows
dropped; sorted descending. -/
def calculateObjectiveRankings (db : Db) (c q : Nat) (u : Option Nat) :
    List ObjectiveRanking :=
  let objectives := nonArchivedObjectives db c q u
  if objectives.isEmpty then []
  else
    List.insertionSort rankingDesc
      ((objectives.map (fun o =>
        let krPercents := (krsOfObjective db o.id).filterMap KeyResult.percentKr
        let aggregated : ℤ :=
          if krPercents.length > 0 then jsRound (krPercents.sum / krPercents.length)
          else jsRound (o.percentObj.getD 0)
        { objectiveTitle := o.title, resultPct := aggregated })).filter
        (fun item => item.resultPct > 0))

/-- Accumulator entry of the grouped rollup: running sum of member
percentages, member count, and running sum of key-result counts. -/
structure GroupStats where
  totalPct : ℚ
  userCount : Nat
  krCount : Nat
  deriving DecidableEq, Repr

/-- One row of the grouped objective ranking (`part_003`), with its
key-result count. -/
structure ObjectiveGroupRanking where
  objectiveTitle : String
  resultPct : ℤ
  krCount : Nat
  deriving DecidableEq, Repr

/-- Descending ordering on grouped-ranking percentages. -/
def groupRankDesc (a b : ObjectiveGroupRanking) : Prop := b.resultPct ≤ a.resultPct

instance : DecidableRel groupRankDesc :=
  fun a b => inferInstanceAs (Decidable (b.resultPct ≤ a.resultPct))

instance : IsTotal ObjectiveGroupRanking groupRankDesc :=
  ⟨fun a b => le_total b.resultPct a.resultPct⟩

instance : IsTrans ObjectiveGroupRanking groupRankDesc :=
  ⟨fun _ _ _ hab hbc => le_trans hbc hab⟩

/-- One step of the grouping loop of the `part_003`
`calculateObjectiveRankings`: a JS `Map` keyed by trimmed title, updated in
place for an existing key and appended at the end for a new one. -/
def addToGroups : List (String × GroupStats) → String × ℚ × Nat →
    List (String × GroupStats)
  | [], (t, p, k) => [(t, ⟨p, 1, k⟩)]
  | (t', s) :: rest, (t, p, k) =>
    if t' = t then (t', ⟨s.totalPct + p, s.userCount + 1, s.krCount + k⟩) :: rest
    else (t', s) :: addToGroups rest (t, p, k)

/-- The grouping pass of the `part_003` `calculateObjectiveRankings`
(lines 274–287): fold all non-archived objectives of (company, quarter) —
no user filter — into title groups. -/
def groupObjectives (db : Db) (c q : Nat) : List (String × GroupStats) :=
  (nonArchivedObjectives db c q none).foldl
    (fun acc o =>
      addToGroups acc (jsTrim o.title, o.percentObj.getD 0, (krsOfObjective db o.id).length))
    []

/-- Association lookup in the grouping accumulator (a JS `Map.get`). -/
def findGroup : List (String × GroupStats) → String → Option GroupStats
  | [], _ => none
  | g :: rest, t => if g.1 = t then some g.2 else findGroup rest t

/-- The grouped objective-rollup of `src/unnamed/part_003` lines 256–319:
group non-archived objectives by trimmed title; per group, percentage =
rounded mean of member cached percentages and key-result count = sum of
member key-result counts; keep groups with positive percentage or positive
key-result count; sort descending.  (The best-effort
`objective_group_results` upsert of the same loop is a write side effect
outside this read path.) -/
def calculateObjectiveRankingsGrouped (db : Db) (c q : Nat) :
    List ObjectiveGroupRanking :=
  let objectives := nonArchivedObjectives db c q none
  if objectives.isEmpty then []
  else
    let groups := groupObjectives db c q
    let result := groups.map (fun g =>
      { objectiveTitle := g.1
        resultPct := jsRound (g.2.totalPct / (g.2.userCount : ℚ))
        krCount := g.2.krCount })
    List.insertionSort groupRankDesc
      (result.filter (fun item => item.resultPct > 0 || item.krCount > 0))

/-! ## Concrete scenario instances -/

/-- Scenario A data (spec §8): one objective, KR₁ with check-ins 40 % at t=1
and 70 % at t=2, KR₂ with no check-ins. -/
def scenarioA : Db := {
  objectives := [⟨1, 1, 1, 7, "Obj", false, some 0⟩]
  keyResults := [⟨1, 1, 1, 1, 7, none⟩, ⟨2, 1, 1, 1, 7, none⟩]
  checkins := [⟨1, 1, some 40, 1⟩, ⟨1, 1, some 70, 2⟩]
  quarterResults := [] }

/-- Null-latest scenario: KR₁'s latest check-in (t=2) has a null attainment
while an earlier one (t=1) holds 40 %; KR₂'s single check-in holds 30 %. -/
def scenarioNullLatest : Db := {
  objectives := [⟨1, 1, 1, 7, "Obj", false, some 0⟩]
  keyResults := [⟨1, 1, 1, 1, 7, none⟩, ⟨2, 1, 1, 1, 7, none⟩]
  checkins := [⟨1, 1, some 40, 1⟩, ⟨1, 1, none, 2⟩, ⟨2, 1, some 30, 1⟩]
  quarterResults := [] }

/-- Finished-quarter scenario: quarter 5 of company 1 ran from day 100 to day
200; one objective of user 7 with one KR checked in at 50 %; no quarter
result rows. -/
def scenarioFinished : Db := {
  objectives := [⟨1, 1, 5, 7, "Obj", false, some 0⟩]
  keyResults := [⟨1, 1, 1, 5, 7, none⟩]
  checkins := [⟨1, 1, some 50, 1⟩]
  quarterResults := [] }

/-- The quarter row of the finished-quarter scenario. -/
def scenarioFinishedQ : QuarterRow := ⟨5, 1, "Q", 100, 200, true⟩

/-- The app state of the finished-quarter scenario. -/
def scenarioFinishedState : AppState := ⟨1, 7, [scenarioFinishedQ], some scenarioFinishedQ⟩

/-- Scenario E data (spec §8): two objectives titled "Increase NPS" with
cached percentages 80 and 40, owning two and one key results. -/
def scenarioE : Db := {
  objectives := [⟨1, 1, 1, 7, "Increase NPS", false, some 80⟩,
                 ⟨2, 1, 1, 8, "Increase NPS", false, some 40⟩]
  keyResults := [⟨1, 1, 1, 1, 7, none⟩, ⟨2, 1, 1, 1, 7, none⟩, ⟨3, 2, 1, 1, 8, none⟩]
  checkins := []
  quarterResults := [] }

/-- Scenario C quarters (spec §8): Q1 January–March 2024, Q2 April–June 2024. -/
def scenarioCQ1 : QuarterRow := ⟨1, 1, "Q1", 20240101, 20240331, true⟩

/-- Scenario C second quarter. -/
def scenarioCQ2 : QuarterRow := ⟨2, 1, "Q2", 20240401, 20240630, true⟩

/-- An inactive company row. -/
def inactiveCo : Company := ⟨1, "Old Co", false⟩

/-- A stale selected company absent from any visible list. -/
def staleCo : Company := ⟨99, "Stale Co", true⟩

/-- A visible active company. -/
def acmeCo : Company := ⟨1, "Acme", true⟩

/-- Quarter-result row used to exercise the override law. -/
def overrideRow : QuarterResultRow := ⟨1, 7, 5, some 85⟩

/-- Database holding only the override row. -/
def overrideDb : Db := {
  objectives := [⟨1, 1, 5, 7, "Obj", false, some 0⟩]
  keyResults := [⟨1, 1, 1, 5, 7, none⟩]
  checkins := [⟨1, 1, some 50, 1⟩]
  quarterResults := [overrideRow] }

/-! ## Helper lemmas -/

theorem storeGet_storeRemove_self (store : List (String × String)) (key : String) :
    storeGet (storeRemove store key) key = none := by
  induction store with
  | nil => rfl
  | cons kv rest ih =>
    by_cases h1 : kv.1 = key
    · simpa [storeRemove, List.filter_cons, h1] using ih
    · simpa [storeRemove, storeGet, List.filter_cons, h1] using ih

theorem storeGet_storeRemove_other (store : List (String × String)) (k k' : String)
    (h : k' ≠ k) : storeGet (storeRemove store k) k' = storeGet store k' := by
  induction store with
  | nil => rfl
  | cons kv rest ih =>
    by_cases h1 : kv.1 = k
    · have h2 : kv.1 ≠ k' := fun hk => h (hk ▸ h1 ▸ rfl)
      have h3 : k ≠ k' := Ne.symm h
      simpa [storeRemove, storeGet, List.filter_cons, h1, h2, h3] using ih
    · by_cases h2 : kv.1 = k'
      · simp [storeRemove, storeGet, List.filter_cons, h1, h2, h]
      · simpa [storeRemove, storeGet, List.filter_cons, h1, h2] using ih

theorem reconcile_admin_none (companyList : List Company) :
    reconcileSelection .admin companyList none = none := by
  cases companyList <;> simp [reconcileSelection]

theorem reconcile_admin_isSome (companyList : List Company) (sc : Company) :
    (reconcileSelection .admin companyList (some sc)).isSome := by
  cases companyList with
  | nil => simp [reconcileSelection]
  | cons first rest =>
    simp only [reconcileSelection]
    cases h : (first :: rest).find? (fun c => c.id == sc.id) with
    | none => simp
    | some cur => by_cases hn : cur.name ≠ sc.name <;> simp [hn]

theorem reconcile_admin_id (companyList : List Company) (sc c' : Company)
    (h : reconcileSelection .admin companyList (some sc) = some c') : c'.id = sc.id := by
  cases companyList with
  | nil =>
    simp only [reconcileSelection] at h
    cases h
    rfl
  | cons first rest =>
    simp only [reconcileSelection] at h
    cases hf : (first :: rest).find? (fun c => c.id == sc.id) with
    | none =>
      rw [hf] at h
      simp only [if_pos rfl] at h
      cases h
      rfl
    | some cur =>
      rw [hf] at h
      dsimp only at h
      have hid := List.find?_some hf
      by_cases hn : cur.name ≠ sc.name
      · rw [if_pos hn] at h
        cases h
        exact beq_iff_eq.mp hid
      · rw [if_neg hn] at h
        cases h
        rfl

theorem latestCheckin_cons_none {cs : List Checkin} (ci : Checkin)
    (h : latestCheckin cs = none) : latestCheckin (ci :: cs) = some ci := by
  unfold latestCheckin
  rw [h]

theorem latestCheckin_cons_some {cs : List Checkin} (ci best : Checkin)
    (h : latestCheckin cs = some best) :
    latestCheckin (ci :: cs) =
      if best.createdAt > ci.createdAt then some best else some ci := by
  unfold latestCheckin
  rw [h]

theorem latestCheckin_eq_none {l : List Checkin} : latestCheckin l = none ↔ l = [] := by
  cases l with
  | nil => simp [latestCheckin]
  | cons ci cs =>
    constructor
    · intro h
      exfalso
      cases hl : latestCheckin cs with
      | none =>
        rw [latestCheckin_cons_none ci hl] at h
        exact Option.noConfusion h
      | some best =>
        rw [latestCheckin_cons_some ci best hl] at h
        by_cases hgt : best.createdAt > ci.createdAt
        · rw [if_pos hgt] at h; exact Option.noConfusion h
        · rw [if_neg hgt] at h; exact Option.noConfusion h
    · intro h
      cases h

theorem latestCheckin_mem {l : List Checkin} {ci : Checkin}
    (h : latestCheckin l = some ci) : ci ∈ l := by
  induction l generalizing ci with
  | nil => cases h
  | cons c0 cs ih =>
    cases hl : latestCheckin cs with
    | none =>
      rw [latestCheckin_cons_none c0 hl] at h
      cases h
      exact List.mem_cons_self _ _
    | some best =>
      rw [latestCheckin_cons_some c0 best hl] at h
      by_cases hgt : best.createdAt > c0.createdAt
      · rw [if_pos hgt] at h
        cases h
        exact List.mem_cons_of_mem _ (ih hl)
      · rw [if_neg hgt] at h
        cases h
        exact List.mem_cons_self _ _

theorem latestCheckin_maxTime {l : List Checkin} {ci : Checkin}
    (h : latestCheckin l = some ci) : ∀ d ∈ l, d.createdAt ≤ ci.createdAt := by
  induction l generalizing ci with
  | nil => cases h
  | cons c0 cs ih =>
    intro d hd
    cases hl : latestCheckin cs with
    | none =>
      rw [latestCheckin_cons_none c0 hl] at h
      cases h
      have hnil : cs = [] := latestCheckin_eq_none.mp hl
      rcases List.mem_cons.mp hd with rfl | hmem
      · exact Nat.le_refl _
      · rw [hnil] at hmem; cases hmem
    | some best =>
      rw [latestCheckin_cons_some c0 best hl] at h
      by_cases hgt : best.createdAt > c0.createdAt
      · rw [if_pos hgt] at h
        cases h
        rcases List.mem_cons.mp hd with rfl | hmem
        · exact Nat.le_of_lt hgt
        · exact ih hl d hmem
      · rw [if_neg hgt] at h
        cases h
        rcases List.mem_cons.mp hd with rfl | hmem
        · exact Nat.le_refl _
        · exact Nat.le_trans (ih hl d hmem) (Nat.le_of_not_lt hgt)

theorem latestCheckin_map (f : Checkin → Checkin)
    (htime : ∀ ci, (f ci).createdAt = ci.createdAt) (l : List Checkin) :
    latestCheckin (l.map f) = (latestCheckin l).map f := by
  induction l with
  | nil => rfl
  | cons c0 cs ih =>
    rw [List.map_cons]
    cases hl : latestCheckin cs with
    | none =>
      have hl' : latestCheckin (cs.map f) = none := by rw [ih, hl]; rfl
      rw [latestCheckin_cons_none _ hl', latestCheckin_cons_none _ hl]
      rfl
    | some best =>
      have hl' : latestCheckin (cs.map f) = some (f best) := by rw [ih, hl]; rfl
      rw [latestCheckin_cons_some _ _ hl', latestCheckin_cons_some _ _ hl]
      rw [htime best, htime c0]
      by_cases hgt : best.createdAt > c0.createdAt
      · rw [if_pos hgt, if_pos hgt]
        rfl
      · rw [if_neg hgt, if_neg hgt]
        rfl

theorem scoped_filter_eq_krCheckins (db : Db) (c : Nat) (krIds : List Nat) (krId : Nat)
    (h : krId ∈ krIds) :
    (scopedCheckins db c krIds).filter (fun ci => ci.keyResultId == krId) =
      krCheckins db c krId := by
  unfold scopedCheckins krCheckins
  rw [List.filter_filter]
  apply List.filter_congr
  intro ci _
  by_cases h1 : ci.keyResultId = krId
  · have hb : (ci.keyResultId == krId) = true := beq_iff_eq.mpr h1
    have hc : krIds.contains ci.keyResultId = true := by
      rw [h1]
      exact List.elem_eq_true_of_mem h
    rw [hb, hc]
    cases hcc : ci.companyId == c <;> rfl
  · have hb : (ci.keyResultId == krId) = false := by
      simp [h1]
    rw [hb, Bool.false_and, Bool.and_false]

theorem filterMap_latest_bridge (krs : List KeyResult) (g : Nat → List Checkin)
    (hg : ∀ kr ∈ krs, ∀ ci, latestCheckin (g kr.id) = some ci → ci.attainmentPct.isSome) :
    krs.filterMap (fun kr => (latestCheckin (g kr.id)).bind Checkin.attainmentPct)
      = (krs.filter (fun kr => !(g kr.id).isEmpty)).map
          (fun kr => ((latestCheckin (g kr.id)).bind Checkin.attainmentPct).getD 0) := by
  induction krs with
  | nil => rfl
  | cons kr rest ih =>
    have hrest : ∀ k ∈ rest, ∀ ci, latestCheckin (g k.id) = some ci →
        ci.attainmentPct.isSome := fun k hk => hg k (List.mem_cons_of_mem _ hk)
    cases hl : latestCheckin (g kr.id) with
    | none =>
      have hnil : g kr.id = [] := latestCheckin_eq_none.mp hl
      have hie : (g kr.id).isEmpty = true := by rw [hnil]; rfl
      rw [List.filterMap_cons, List.filter_cons]
      simp [hl, hie, ih hrest]
    | some ci =>
      have hsome := hg kr (List.mem_cons_self _ _) ci hl
      rcases Option.isSome_iff_exists.mp hsome with ⟨v, hv⟩
      have hne : (g kr.id).isEmpty = false := by
        rw [List.isEmpty_eq_false]
        intro hnil
        rw [hnil] at hl
        cases hl.symm.trans (latestCheckin_eq_none.mpr rfl)
      rw [List.filterMap_cons, List.filter_cons]
      simp [hl, hv, hne, ih hrest]

theorem qualifyingKRs_nil (db : Db) (c q : Nat) (u : Option Nat)
    (h : qualifyingObjectives db c q u = []) : qualifyingKRs db c q u = [] := by
  unfold qualifyingKRs
  rw [h]
  simp

theorem progress_eq_spec (db : Db) (c q : Nat) (u : Option Nat)
    (hnn : ∀ ci ∈ db.checkins, ci.attainmentPct.isSome) :
    calculateQuarterProgress db c q u = specCurrentProgress db c q u := by
  have hfilter : ∀ kr ∈ qualifyingKRs db c q u,
      (scopedCheckins db c ((qualifyingKRs db c q u).map (·.id))).filter
        (fun ci => ci.keyResultId == kr.id) = krCheckins db c kr.id := by
    intro kr hkr
    exact scoped_filter_eq_krCheckins db c _ kr.id (List.mem_map_of_mem _ hkr)
  have hg : ∀ kr ∈ qualifyingKRs db c q u, ∀ ci,
      latestCheckin (krCheckins db c kr.id) = some ci → ci.attainmentPct.isSome := by
    intro kr _ ci hci
    have hmem : ci ∈ krCheckins db c kr.id := latestCheckin_mem hci
    exact hnn ci (List.mem_filter.mp hmem).1
  by_cases h1 : (qualifyingObjectives db c q u).isEmpty
  · have hKnil := qualifyingKRs_nil db c q u (List.isEmpty_iff.mp h1)
    unfold calculateQuarterProgress specCurrentProgress
    simp [h1, hKnil]
  · by_cases h2 : (qualifyingKRs db c q u).isEmpty
    · have hKnil := List.isEmpty_iff.mp h2
      unfold calculateQuarterProgress specCurrentProgress
      simp [h1, h2, hKnil]
    · by_cases h3 : (scopedCheckins db c
          ((qualifyingKRs db c q u).map (·.id))).isEmpty
      · have hscoped := List.isEmpty_iff.mp h3
        have hkc : ∀ kr ∈ qualifyingKRs db c q u, krCheckins db c kr.id = [] := by
          intro kr hkr
          rw [← hfilter kr hkr, hscoped]
          rfl
        have hkw : (qualifyingKRs db c q u).filter
            (fun kr => !(krCheckins db c kr.id).isEmpty) = [] := by
          rw [List.filter_eq_nil_iff]
          intro kr hkr
          simp [hkc kr hkr]
        unfold calculateQuarterProgress specCurrentProgress
        simp [h1, h2, h3, hkw]
      · have e1 : (qualifyingKRs db c q u).filterMap
            (fun kr => krContribution
              (scopedCheckins db c ((qualifyingKRs db c q u).map (·.id))) kr.id) =
            (qualifyingKRs db c q u).filterMap
              (fun kr => (latestCheckin (krCheckins db c kr.id)).bind
                Checkin.attainmentPct) := by
          apply List.filterMap_congr
          intro kr hkr
          unfold krContribution
          rw [hfilter kr hkr]
        have hLA : lastAttainments db c q u =
            ((qualifyingKRs db c q u).filter
              (fun kr => !(krCheckins db c kr.id).isEmpty)).map
                (fun kr => ((latestCheckin (krCheckins db c kr.id)).bind
                  Checkin.attainmentPct).getD 0) := by
          unfold lastAttainments
          rw [e1]
          exact filterMap_latest_bridge _ _ hg
        unfold calculateQuarterProgress specCurrentProgress
        simp only [h1, h2, h3, if_false, Bool.false_eq_true]
        rw [hLA]

theorem findGroup_addToGroups (acc : List (String × GroupStats)) (t' t : String)
    (p : ℚ) (k : Nat) :
    findGroup (addToGroups acc (t', p, k)) t =
      if t = t' then
        some (match findGroup acc t with
          | some s => ⟨s.totalPct + p, s.userCount + 1, s.krCount + k⟩
          | none => ⟨p, 1, k⟩)
      else findGroup acc t := by
  induction acc with
  | nil =>
    by_cases ht : t = t'
    · simp [addToGroups, findGroup, ht]
    · have hts : ¬t' = t := fun h => ht h.symm
      simp [addToGroups, findGroup, ht, hts]
  | cons g rest ih =>
    obtain ⟨tg, sg⟩ := g
    by_cases h1 : tg = t'
    · simp only [addToGroups, if_pos h1]
      by_cases ht2 : tg = t
      · have ht : t = t' := ht2 ▸ h1
        simp [findGroup, ht2, ht]
      · have ht : ¬(t = t') := fun h => ht2 (h1.trans h.symm)
        simp [findGroup, ht2, ht]
    · simp only [addToGroups, if_neg h1]
      by_cases ht2 : tg = t
      · have ht : ¬(t = t') := fun h => h1 (ht2.trans h)
        simp [findGroup, ht2, ht]
      · simp [findGroup, ht2, ih]

theorem findGroup_foldl (db : Db) (objs : List Objective)
    (acc : List (String × GroupStats)) (t : String) :
    findGroup (objs.foldl (fun a o => addToGroups a
        (jsTrim o.title, o.percentObj.getD 0, (krsOfObjective db o.id).length)) acc) t =
      (if (objs.filter (fun o => jsTrim o.title = t)).isEmpty then findGroup acc t
       else
         some ⟨((findGroup acc t).getD ⟨0, 0, 0⟩).totalPct +
                 ((objs.filter (fun o => jsTrim o.title = t)).map
                   (fun o => o.percentObj.getD 0)).sum,
               ((findGroup acc t).getD ⟨0, 0, 0⟩).userCount +
                 (objs.filter (fun o => jsTrim o.title = t)).length,
               ((findGroup acc t).getD ⟨0, 0, 0⟩).krCount +
                 ((objs.filter (fun o => jsTrim o.title = t)).map
                   (fun o => (krsOfObjective db o.id).length)).sum⟩) := by
  induction objs generalizing acc with
  | nil => simp
  | cons o rest ih =>
    rw [List.foldl_cons, ih, List.filter_cons]
    by_cases ht : jsTrim o.title = t
    · have htd : decide (jsTrim o.title = t) = true := decide_eq_true ht
      have ht' : t = jsTrim o.title := ht.symm
      rw [findGroup_addToGroups]
      simp only [htd, if_pos ht', if_true, List.isEmpty_cons]
      by_cases hrest : (rest.filter (fun o => jsTrim o.title = t)).isEmpty
      · have hrnil : rest.filter (fun o => jsTrim o.title = t) = [] :=
          List.isEmpty_iff.mp hrest
        rw [if_pos hrest]
        cases hacc : findGroup acc t with
        | none => simp [hacc, hrnil]
        | some s => simp [hacc, hrnil]
      · rw [if_neg hrest]
        cases hacc : findGroup acc t with
        | none =>
          simp only [hacc, Option.getD_none, Option.getD_some, List.map_cons,
            List.sum_cons, List.length_cons, Bool.false_eq_true, if_false,
            Option.some.injEq, GroupStats.mk.injEq]
          refine ⟨by ring, by omega, by omega⟩
        | some s =>
          simp only [hacc, Option.getD_none, Option.getD_some, List.map_cons,
            List.sum_cons, List.length_cons, Bool.false_eq_true, if_false,
            Option.some.injEq, GroupStats.mk.injEq]
          refine ⟨by ring, by omega, by omega⟩
    · have htd : decide (jsTrim o.title = t) = false := decide_eq_false ht
      have ht' : ¬(t = jsTrim o.title) := fun h => ht h.symm
      rw [findGroup_addToGroups]
      simp only [htd, if_neg ht', Bool.false_eq_true, if_false]

theorem mem_fetchQuartersSorted (quarters : List QuarterRow) (c : Nat) (x : QuarterRow) :
    x ∈ fetchQuartersSorted quarters c ↔
      x ∈ quarters.filter (fun q' => q'.companyId == c) := by
  rw [fetchQuartersSorted, List.mem_insertionSort]

theorem effectiveQuarter_mem (quarters : List QuarterRow) (c today : Nat)
    (q : QuarterRow) (h : effectiveQuarter quarters c today = some q) :
    q ∈ quarters.filter (fun q' => q'.companyId == c) := by
  unfold effectiveQuarter at h
  cases hf : (fetchQuartersSorted quarters c).find?
      (fun q' => q'.startDate ≤ today && today ≤ q'.endDate) with
  | some q' =>
    rw [hf] at h
    dsimp only at h
    cases h
    exact (mem_fetchQuartersSorted quarters c _).mp (List.mem_of_find?_eq_some hf)
  | none =>
    rw [hf] at h
    dsimp only at h
    cases hs : fetchQuartersSorted quarters c with
    | nil => rw [hs] at h; cases h
    | cons a l =>
      rw [hs] at h
      cases h
      exact (mem_fetchQuartersSorted quarters c _).mp (hs ▸ List.mem_cons_self _ l)

theorem effectiveQuarter_unique (quarters : List QuarterRow) (c today : Nat)
    (q0 : QuarterRow)
    (hq0 : q0 ∈ quarters.filter (fun q' => q'.companyId == c))
    (hin : q0.startDate ≤ today ∧ today ≤ q0.endDate)
    (huniq : ∀ q' ∈ quarters.filter (fun q' => q'.companyId == c),
      q'.startDate ≤ today ∧ today ≤ q'.endDate → q' = q0) :
    effectiveQuarter quarters c today = some q0 := by
  have hmem : q0 ∈ fetchQuartersSorted quarters c :=
    (mem_fetchQuartersSorted quarters c q0).mpr hq0
  have hp0 : (fun q' : QuarterRow => q'.startDate ≤ today && today ≤ q'.endDate) q0 = true := by
    simp [hin.1, hin.2]
  have hissome : ((fetchQuartersSorted quarters c).find?
      (fun q' => q'.startDate ≤ today && today ≤ q'.endDate)).isSome :=
    List.find?_isSome.mpr ⟨q0, hmem, hp0⟩
  obtain ⟨qf, hqf⟩ := Option.isSome_iff_exists.mp hissome
  have hpf := List.find?_some hqf
  have hmf : qf ∈ quarters.filter (fun q' => q'.companyId == c) :=
    (mem_fetchQuartersSorted quarters c qf).mp (List.mem_of_find?_eq_some hqf)
  have hpf' : qf.startDate ≤ today ∧ today ≤ qf.endDate := by
    simpa using hpf
  have heq : qf = q0 := huniq qf hmf hpf'
  unfold effectiveQuarter
  rw [hqf, heq]

theorem effectiveQuarter_fallback (quarters : List QuarterRow) (c today : Nat)
    (hne : quarters.filter (fun q' => q'.companyId == c) ≠ [])
    (hnone : ∀ q' ∈ quarters.filter (fun q' => q'.companyId == c),
      ¬(q'.startDate ≤ today ∧ today ≤ q'.endDate)) :
    ∃ q, effectiveQuarter quarters c today = some q ∧
      q ∈ quarters.filter (fun q' => q'.companyId == c) ∧
      ∀ q' ∈ quarters.filter (fun q' => q'.companyId == c),
        q'.startDate ≤ q.startDate := by
  have hfind : (fetchQuartersSorted quarters c).find?
      (fun q' => q'.startDate ≤ today && today ≤ q'.endDate) = none := by
    rw [List.find?_eq_none]
    intro x hx
    have hnx := hnone x ((mem_fetchQuartersSorted quarters c x).mp hx)
    simpa using hnx
  have hsne : fetchQuartersSorted quarters c ≠ [] := by
    intro hnil
    apply hne
    have hperm := List.perm_insertionSort startDateDesc
      (quarters.filter (fun q' => q'.companyId == c))
    rw [fetchQuartersSorted] at hnil
    rw [hnil] at hperm
    exact (List.Perm.symm hperm).eq_nil
  obtain ⟨a, l, hs⟩ : ∃ a l, fetchQuartersSorted quarters c = a :: l := by
    cases hsc : fetchQuartersSorted quarters c with
    | nil => exact absurd hsc hsne
    | cons a l => exact ⟨a, l, rfl⟩
  have hsorted : List.Sorted startDateDesc (fetchQuartersSorted quarters c) :=
    List.sorted_insertionSort _ _
  refine ⟨a, ?_, ?_, ?_⟩
  · unfold effectiveQuarter
    rw [hfind, hs]
    rfl
  · exact (mem_fetchQuartersSorted quarters c a).mp (hs ▸ List.mem_cons_self a l)
  · intro q' hq'
    have hmem : q' ∈ fetchQuartersSorted quarters c :=
      (mem_fetchQuartersSorted quarters c q').mpr hq'
    rw [hs] at hmem hsorted
    rcases List.mem_cons.mp hmem with rfl | hmem'
    · exact Nat.le_refl _
    · exact List.rel_of_pairwise_cons hsorted hmem'

theorem mem_fetchCompanies_active (companies : List Company)
    (members : List CompanyMember) (role : Role) (uid : Nat) (co : Company)
    (h : co ∈ fetchCompanies companies members role uid) : co.isActive = true := by
  unfold fetchCompanies at h
  by_cases hr : role = .admin
  · rw [if_pos hr, List.mem_insertionSort] at h
    exact (List.mem_filter.mp h).2
  · rw [if_neg hr, List.mem_insertionSort] at h
    exact (List.mem_filter.mp h).2

theorem mem_modalCompanies_active (companies : List Company) (co : Company)
    (h : co ∈ modalCompanies companies) : co.isActive = true := by
  unfold modalCompanies at h
  rw [List.mem_insertionSort] at h
  exact (List.mem_filter.mp h).2

theorem quarterStatus_spec (today : Nat) (q : QuarterRow)
    (hse : q.startDate ≤ q.endDate) :
    (quarterStatus today q = .current ↔ (q.startDate ≤ today ∧ today ≤ q.endDate)) ∧
    (quarterStatus today q = .finished ↔ q.endDate < today) ∧
    (quarterStatus today q = .future ↔ today < q.startDate) := by
  unfold quarterStatus
  by_cases h1 : q.startDate ≤ today ∧ today ≤ q.endDate
  · rw [if_pos h1]
    refine ⟨⟨fun _ => h1, fun _ => rfl⟩, ?_, ?_⟩
    · exact ⟨fun hx => absurd hx (by decide), fun hlt => absurd hlt (by omega)⟩
    · exact ⟨fun hx => absurd hx (by decide), fun hlt => absurd hlt (by omega)⟩
  · rw [if_neg h1]
    by_cases h2 : today > q.endDate
    · rw [if_pos h2]
      refine ⟨?_, ⟨fun _ => h2, fun _ => rfl⟩, ?_⟩
      · exact ⟨fun hx => absurd hx (by decide), fun hc => absurd h2 (by omega)⟩
      · exact ⟨fun hx => absurd hx (by decide), fun hf => absurd hf (by omega)⟩
    · rw [if_neg h2]
      refine ⟨?_, ?_, ⟨fun _ => by omega, fun _ => rfl⟩⟩
      · exact ⟨fun hx => absurd hx (by decide), fun hc => absurd hc h1⟩
      · exact ⟨fun hx => absurd hx (by decide), fun hf => absurd hf (by omega)⟩

theorem filter_map_pred_invariant (f : Checkin → Checkin) (p : Checkin → Bool)
    (hp : ∀ ci, p (f ci) = p ci) (l : List Checkin) :
    (l.map f).filter p = (l.filter p).map f := by
  rw [List.filter_map]
  exact congrArg _ (List.filter_congr (fun x _ => hp x))

theorem progress_map_invariant (db db' : Db) (c q : Nat) (u : Option Nat)
    (f : Checkin → Checkin)
    (hobj : db'.objectives = db.objectives)
    (hkrs : db'.keyResults = db.keyResults)
    (hch : db'.checkins = db.checkins.map f)
    (hqr : db'.quarterResults = db.quarterResults)
    (hkey : ∀ ci, (f ci).keyResultId = ci.keyResultId)
    (hco : ∀ ci, (f ci).companyId = ci.companyId)
    (htime : ∀ ci, (f ci).createdAt = ci.createdAt)
    (hlatest : ∀ kr ∈ qualifyingKRs db c q u, ∀ ci,
      latestCheckin ((scopedCheckins db c ((qualifyingKRs db c q u).map (·.id))).filter
        (fun x => x.keyResultId == kr.id)) = some ci →
      (f ci).attainmentPct = ci.attainmentPct) :
    calculateQuarterProgress db' c q u = calculateQuarterProgress db c q u := by
  have e0 : qualifyingObjectives db' c q u = qualifyingObjectives db c q u := by
    unfold qualifyingObjectives
    rw [hobj]
  have e1 : qualifyingKRs db' c q u = qualifyingKRs db c q u := by
    unfold qualifyingKRs
    rw [hkrs, e0]
  have e2 : scopedCheckins db' c ((qualifyingKRs db c q u).map (·.id)) =
      (scopedCheckins db c ((qualifyingKRs db c q u).map (·.id))).map f := by
    unfold scopedCheckins
    rw [hch]
    exact filter_map_pred_invariant f _ (fun ci => by rw [hkey ci, hco ci]) _
  have hie : ((scopedCheckins db c ((qualifyingKRs db c q u).map (·.id))).map f).isEmpty =
      (scopedCheckins db c ((qualifyingKRs db c q u).map (·.id))).isEmpty := by
    cases scopedCheckins db c ((qualifyingKRs db c q u).map (·.id)) <;> rfl
  have e3 : lastAttainments db' c q u = lastAttainments db c q u := by
    unfold lastAttainments
    rw [e1, e2]
    apply List.filterMap_congr
    intro kr hkr
    unfold krContribution
    rw [filter_map_pred_invariant f _ (fun ci => by rw [hkey ci]) _,
      latestCheckin_map f htime]
    cases hl : latestCheckin ((scopedCheckins db c
        ((qualifyingKRs db c q u).map (·.id))).filter
          (fun x => x.keyResultId == kr.id)) with
    | none => rfl
    | some ci => exact hlatest kr hkr ci hl
  unfold calculateQuarterProgress
  rw [e0, e1, e2, hie, e3]

/-! ## Claim theorems -/

/-- Claim C1, counterexample: an admin whose previously selected tenant
(`staleCo`) is absent from the fetched visible list keeps that stale non-null
selection — the reconciliation does not null it; and in the legacy
`src/components/CompanySelector.tsx` revision the admin is even auto-assigned
the first visible company.  The claimed "resulting Selected Tenant Context is
null" therefore fails. -/
theorem claim_C1_cex :
    reconcileSelection .admin [acmeCo] (some staleCo) = some staleCo ∧
    reconcileSelection .admin [acmeCo] (some staleCo) ≠ none ∧
    reconcileSelectionLegacy [acmeCo] (some staleCo.id) = some acmeCo.id := by
  refine ⟨by decide, by decide, by decide⟩

/-- Claim C1, amended: after a visible-tenant fetch, the reconciliation step
never auto-assigns a tenant to an admin identity — a null selection stays
null, and a non-null selection keeps its tenant id (found entries only
refresh the cached name); in particular the selection is only null when it
already was null. -/
theorem claim_C1 (companyList : List Company) (sc : Company) :
    reconcileSelection .admin companyList none = none ∧
    (reconcileSelection .admin companyList (some sc)).isSome = true ∧
    (∀ c', reconcileSelection .admin companyList (some sc) = some c' → c'.id = sc.id) :=
  ⟨reconcile_admin_none companyList,
   reconcile_admin_isSome companyList sc,
   fun c' h => reconcile_admin_id companyList sc c' h⟩

/-- Claim C1 witness: the amended statement evaluated on a concrete list and
selection. -/
theorem claim_C1_witness :
    reconcileSelection .admin [acmeCo] none = none ∧
    (reconcileSelection .admin [acmeCo] (some staleCo)).isSome = true ∧
    staleCo.id = staleCo.id :=
  ⟨(claim_C1 [acmeCo] staleCo).1, (claim_C1 [acmeCo] staleCo).2.1,
   (claim_C1 [acmeCo] staleCo).2.2 staleCo (by decide)⟩

/-- Claim C2, counterexample: `PerformanceHistory.loadCompanies` applies no
`is_active` filter, so an inactive tenant appears in the admin company-filter
list offered for selection on that page. -/
theorem claim_C2_cex :
    inactiveCo ∈ loadCompaniesHistory [inactiveCo] ∧
    inactiveCo.isActive = false := by
  refine ⟨by decide, by decide⟩

/-- Claim C2, amended: in the tenant-selection surfaces — the
`CompanySelector` visible list for every role and the admin
`CompanySelectionModal` list — a tenant with `active = false` never appears;
the `PerformanceHistory` admin company filter, however, lists all companies
regardless of the active flag. -/
theorem claim_C2 (companies : List Company) (members : List CompanyMember)
    (role : Role) (uid : Nat) (co co' : Company)
    (hco : co ∈ fetchCompanies companies members role uid)
    (hco' : co' ∈ modalCompanies companies) :
    co.isActive = true ∧ co'.isActive = true :=
  ⟨mem_fetchCompanies_active _ _ _ _ _ hco, mem_modalCompanies_active _ _ hco'⟩

/-- Claim C2 witness: the amended statement evaluated on a concrete active
company. -/
theorem claim_C2_witness : acmeCo.isActive = true ∧ acmeCo.isActive = true :=
  claim_C2 [acmeCo] [] .admin 0 acmeCo acmeCo (by decide) (by decide)

/-- Claim C7: `signOut` always clears the local identity, profile and session,
removes both tenant-selection storage keys, clears the session-scoped storage
and signals navigation to the login entry point, in every execution —
including those in which the remote sign-out call fails. -/
theorem claim_C7 (st : AuthState) (remoteFails : Bool) :
    (signOut st remoteFails).user = none ∧
    (signOut st remoteFails).profile = none ∧
    (signOut st remoteFails).session = none ∧
    storeGet (signOut st remoteFails).localStorage "selectedCompanyId" = none ∧
    storeGet (signOut st remoteFails).localStorage "selectedCompany" = none ∧
    (signOut st remoteFails).sessionStorage = [] ∧
    (signOut st remoteFails).navTarget = some "/auth" := by
  refine ⟨rfl, rfl, rfl, ?_, ?_, rfl, rfl⟩
  · rw [show (signOut st remoteFails).localStorage =
      storeRemove (storeRemove st.localStorage "selectedCompanyId")
        "selectedCompany" from rfl]
    rw [storeGet_storeRemove_other _ _ _ (by decide)]
    exact storeGet_storeRemove_self _ _
  · exact storeGet_storeRemove_self _ _

/-- Claim C9: on a fresh admin session (no session marker) with a previously
selected tenant, the initialization effect clears the selection and sets the
marker; once the marker is set, a later initialization pass leaves the
selection untouched, and no reconciliation pass ever clears a non-null admin
selection. -/
theorem claim_C9 (st st2 : SelectorCtx) (role : Role) (co : Company)
    (companyList : List Company) (sc : Company)
    (h1 : st.selected = some co) (h2 : st.markerSet = false)
    (h3 : st.hasInitialized = false) :
    freshSessionInit .admin st =
      { selected := none, markerSet := true, hasInitialized := true } ∧
    (st2.markerSet = true → (freshSessionInit role st2).selected = st2.selected) ∧
    (reconcileSelection .admin companyList (some sc)).isSome = true := by
  refine ⟨?_, ?_, reconcile_admin_isSome companyList sc⟩
  · obtain ⟨sel, mk, hi⟩ := st
    simp only at h1 h2 h3
    subst h1 h2 h3
    simp [freshSessionInit]
  · intro hm
    unfold freshSessionInit
    by_cases hinit : st2.hasInitialized
    · simp [hinit]
    · simp [hinit, hm]

/-- Claim C9 witness: the statement evaluated on a concrete fresh admin
session with a stored selection. -/
theorem claim_C9_witness :
    freshSessionInit .admin ⟨some acmeCo, false, false⟩ =
      { selected := none, markerSet := true, hasInitialized := true } ∧
    ((⟨none, true, true⟩ : SelectorCtx).markerSet = true →
      (freshSessionInit .admin ⟨none, true, true⟩).selected =
        (⟨none, true, true⟩ : SelectorCtx).selected) ∧
    (reconcileSelection .admin [acmeCo] (some staleCo)).isSome = true :=
  claim_C9 ⟨some acmeCo, false, false⟩ ⟨none, true, true⟩ .admin acmeCo
    [acmeCo] staleCo rfl rfl rfl

/-- Claim C3: the per-user current-progress computation equals the spec's
description — the half-up-rounded arithmetic mean of the latest-timestamped
check-in attainment of each key result, key results without check-ins
excluded, 0 when nothing qualifies — whenever attainment values are non-null;
and on Scenario A (KR₁ checked in at 40 % then 70 %, KR₂ never) it returns 70. -/
theorem claim_C3 (db : Db) (c q : Nat) (u : Option Nat)
    (hnn : ∀ ci ∈ db.checkins, ci.attainmentPct.isSome) :
    calculateQuarterProgress db c q u = specCurrentProgress db c q u ∧
    calculateQuarterProgress scenarioA 1 1 none = 70 := by
  refine ⟨progress_eq_spec db c q u hnn, ?_⟩
  have h1 : lastAttainments scenarioA 1 1 none = [(70 : ℚ)] := by decide
  have h2 : (qualifyingObjectives scenarioA 1 1 none).isEmpty = false := by decide
  have h3 : (qualifyingKRs scenarioA 1 1 none).isEmpty = false := by decide
  have h4 : (scopedCheckins scenarioA 1
      ((qualifyingKRs scenarioA 1 1 none).map (·.id))).isEmpty = false := by decide
  rw [calculateQuarterProgress]
  simp [h1, h2, h3, h4, jsRound]
  norm_num

/-- Claim C3 witness: the refinement and the scenario evaluated on the
Scenario A data. -/
theorem claim_C3_witness :
    calculateQuarterProgress scenarioA 1 1 none =
      specCurrentProgress scenarioA 1 1 none ∧
    calculateQuarterProgress scenarioA 1 1 none = 70 :=
  claim_C3 scenarioA 1 1 none (by decide)

/-- Claim C4: when exactly one quarter-result row with a non-null percentage
exists for (tenant, user, quarter), the displayed progress for that triple is
that percentage rounded — in the per-quarter performance history for any
quarter of the state (not only the effective one) and in the non-admin
headline progress — regardless of what the check-in computation would yield. -/
theorem claim_C4 (db : Db) (state : AppState) (uid today : Nat) (q : QuarterRow)
    (r : QuarterResultRow) (v : ℚ) (role : Role)
    (hq : q ∈ state.quarters)
    (hr : db.quarterResults.filter (fun r' => r'.companyId == state.companyId &&
      r'.userId == uid && r'.quarterId == q.id) = [r])
    (hv : r.resultPercent = some v)
    (hrole : role ≠ .admin) :
    (perfForQuarter db state (some uid) today q).resultPct = jsRound v ∧
    perfForQuarter db state (some uid) today q ∈
      calculateQuarterPerformanceFromResults db state (some uid) today ∧
    dashboardHeadlineProgress db state.companyId role uid q.id = jsRound v := by
  have hfind : findQuarterResult db state.companyId uid q.id = some r := by
    unfold findQuarterResult
    rw [hr]
  refine ⟨?_, ?_, ?_⟩
  · simp only [perfForQuarter]
    rw [hfind]
    simp [hv]
  · exact List.mem_map_of_mem _ hq
  · unfold dashboardHeadlineProgress
    rw [if_pos hrole, hfind]
    simp [hv]

/-- Claim C4 witness: the override law evaluated on a finished quarter with a
finalized result of 85 % and a conflicting check-in-derived value. -/
theorem claim_C4_witness :
    (perfForQuarter overrideDb scenarioFinishedState (some 7) 300
      scenarioFinishedQ).resultPct = jsRound 85 ∧
    perfForQuarter overrideDb scenarioFinishedState (some 7) 300 scenarioFinishedQ ∈
      calculateQuarterPerformanceFromResults overrideDb scenarioFinishedState
        (some 7) 300 ∧
    dashboardHeadlineProgress overrideDb scenarioFinishedState.companyId .user 7
      scenarioFinishedQ.id = jsRound 85 :=
  claim_C4 overrideDb scenarioFinishedState 7 300 scenarioFinishedQ overrideRow 85
    .user (by decide) (by decide) rfl (by decide)

/-- Claim C6: the effective quarter always belongs to the tenant's quarters;
when exactly one quarter's inclusive range contains today it is that one;
when no range contains today it is one with the most recent start date; and
for Q1 = Jan–Mar, Q2 = Apr–Jun with today = 15 May the effective quarter is
Q2. -/
theorem claim_C6 (quarters : List QuarterRow) (c today : Nat) (q0 : QuarterRow)
    (hne : quarters.filter (fun q' => q'.companyId == c) ≠ []) :
    (∀ q, effectiveQuarter quarters c today = some q →
      q ∈ quarters.filter (fun q' => q'.companyId == c)) ∧
    (q0 ∈ quarters.filter (fun q' => q'.companyId == c) →
      (q0.startDate ≤ today ∧ today ≤ q0.endDate) →
      (∀ q' ∈ quarters.filter (fun q' => q'.companyId == c),
        q'.startDate ≤ today ∧ today ≤ q'.endDate → q' = q0) →
      effectiveQuarter quarters c today = some q0) ∧
    ((∀ q' ∈ quarters.filter (fun q' => q'.companyId == c),
        ¬(q'.startDate ≤ today ∧ today ≤ q'.endDate)) →
      ∃ q, effectiveQuarter quarters c today = some q ∧
        q ∈ quarters.filter (fun q' => q'.companyId == c) ∧
        ∀ q' ∈ quarters.filter (fun q' => q'.companyId == c),
          q'.startDate ≤ q.startDate) ∧
    effectiveQuarter [scenarioCQ1, scenarioCQ2] 1 20240515 = some scenarioCQ2 :=
  ⟨fun q h => effectiveQuarter_mem quarters c today q h,
   fun hq0 hin huniq => effectiveQuarter_unique quarters c today q0 hq0 hin huniq,
   fun hnone => effectiveQuarter_fallback quarters c today hne hnone,
   by decide⟩

/-- Claim C6 witness: Scenario C evaluated concretely. -/
theorem claim_C6_witness :
    effectiveQuarter [scenarioCQ1, scenarioCQ2] 1 20240515 = some scenarioCQ2 :=
  (claim_C6 [scenarioCQ1, scenarioCQ2] 1 20240515 scenarioCQ2 (by decide)).2.1
    (by decide) (by decide) (by decide)

/-- Claim C5, counterexample: for a finished quarter with no quarter-result
row, the performance history attaches 0 — not the check-in-derived current
progress (50 here) that the claim's "override-then-check-in" rule would
attach. -/
theorem claim_C5_cex :
    (perfForQuarter scenarioFinished scenarioFinishedState (some 7) 300
      scenarioFinishedQ).resultPct = 0 ∧
    findQuarterResult scenarioFinished 1 7 5 = none ∧
    calculateQuarterProgress scenarioFinished 1 5 (some 7) = 50 ∧
    (perfForQuarter scenarioFinished scenarioFinishedState (some 7) 300
      scenarioFinishedQ).resultPct ≠
      calculateQuarterProgress scenarioFinished 1 5 (some 7) := by
  have hp : calculateQuarterProgress scenarioFinished 1 5 (some 7) = 50 := by
    have h1 : lastAttainments scenarioFinished 1 5 (some 7) = [(50 : ℚ)] := by decide
    have h2 : (qualifyingObjectives scenarioFinished 1 5 (some 7)).isEmpty = false := by
      decide
    have h3 : (qualifyingKRs scenarioFinished 1 5 (some 7)).isEmpty = false := by decide
    have h4 : (scopedCheckins scenarioFinished 1
        ((qualifyingKRs scenarioFinished 1 5 (some 7)).map (·.id))).isEmpty = false := by
      decide
    rw [calculateQuarterProgress]
    simp [h1, h2, h3, h4, jsRound]
    norm_num
  have hz : (perfForQuarter scenarioFinished scenarioFinishedState (some 7) 300
      scenarioFinishedQ).resultPct = 0 := by decide
  refine ⟨hz, by decide, hp, ?_⟩
  rw [hz, hp]
  decide

/-- Claim C5, amended: every quarter of the state is classified `current` when
today lies in its inclusive range, `finished` when today is past its end, and
`future` when today precedes its start; the attached percentage is the
quarter-result override when present (per-user view), else the
check-in-derived progress only for the current quarter and 0 for finished or
future quarters, while the aggregate view always uses the check-in-derived
progress. -/
theorem claim_C5 (db : Db) (state : AppState) (uopt : Option Nat) (today : Nat)
    (q : QuarterRow) (hq : q ∈ state.quarters) (hse : q.startDate ≤ q.endDate) :
    ((perfForQuarter db state uopt today q).status = .current ↔
      (q.startDate ≤ today ∧ today ≤ q.endDate)) ∧
    ((perfForQuarter db state uopt today q).status = .finished ↔
      q.endDate < today) ∧
    ((perfForQuarter db state uopt today q).status = .future ↔
      today < q.startDate) ∧
    perfForQuarter db state uopt today q ∈
      calculateQuarterPerformanceFromResults db state uopt today ∧
    (perfForQuarter db state uopt today q).resultPct =
      (match uopt with
       | some uid =>
         match (findQuarterResult db state.companyId uid q.id).bind
             QuarterResultRow.resultPercent with
         | some v => jsRound v
         | none =>
           if q.startDate ≤ today ∧ today ≤ q.endDate then
             calculateQuarterProgress db state.companyId q.id (some uid)
           else 0
       | none => calculateQuarterProgress db state.companyId q.id none) := by
  obtain ⟨hcur, hfin, hfut⟩ := quarterStatus_spec today q hse
  refine ⟨hcur, hfin, hfut, List.mem_map_of_mem _ hq, ?_⟩
  show (match uopt with
       | some uid =>
         match (findQuarterResult db state.companyId uid q.id).bind
             QuarterResultRow.resultPercent with
         | some v => jsRound v
         | none =>
           if quarterStatus today q = QStatus.current then
             calculateQuarterProgress db state.companyId q.id (some uid)
           else 0
       | none => calculateQuarterProgress db state.companyId q.id none) = _
  cases uopt with
  | none => rfl
  | some uid =>
    dsimp only
    cases hb : (findQuarterResult db state.companyId uid q.id).bind
        QuarterResultRow.resultPercent with
    | some v => rfl
    | none =>
      by_cases hr : q.startDate ≤ today ∧ today ≤ q.endDate
      · rw [if_pos (hcur.mpr hr), if_pos hr]
      · rw [if_neg (fun hc => hr (hcur.mp hc)), if_neg hr]

/-- Claim C5 witness: a finished quarter of the concrete scenario is
classified `finished`. -/
theorem claim_C5_witness :
    (perfForQuarter scenarioFinished scenarioFinishedState (some 7) 300
      scenarioFinishedQ).status = .finished :=
  ((claim_C5 scenarioFinished scenarioFinishedState (some 7) 300 scenarioFinishedQ
    (by decide) (by decide)).2.1).mpr (by decide)

/-- Claim C8, counterexample: the current `Dashboard.tsx` rollup does not
group by title — two non-archived objectives both titled "Increase NPS" with
cached percentages 80 and 40 yield two separate rows, and no row carries the
claimed group mean 60. -/
theorem claim_C8_cex :
    calculateObjectiveRankings scenarioE 1 1 none =
      [⟨"Increase NPS", 80⟩, ⟨"Increase NPS", 40⟩] ∧
    ¬ (60 : ℤ) ∈ (calculateObjectiveRankings scenarioE 1 1 none).map
      ObjectiveRanking.resultPct := by
  have h : calculateObjectiveRankings scenarioE 1 1 none =
      [⟨"Increase NPS", 80⟩, ⟨"Increase NPS", 40⟩] := by
    norm_num [scenarioE, calculateObjectiveRankings, nonArchivedObjectives,
      krsOfObjective, objMatches, jsRound, List.insertionSort, List.orderedInsert,
      rankingDesc]
  refine ⟨h, ?_⟩
  rw [h]
  decide

/-- Claim C8, amended: the grouped rollup of the `part_003` revision groups
all non-archived objectives of (tenant, quarter) by trimmed title — each
group accumulating the sum of member cached percentages, the member count
(whose quotient, half-up rounded, is the group percentage) and the sum of
member key-result counts — and on Scenario E the two "Increase NPS"
objectives cached at 80 and 40 with three key results aggregate to a single
row at 60 with key-result count 3; the rollup of the current `Dashboard.tsx`
does not group. -/
theorem claim_C8 (db : Db) (c q : Nat) (t : String) :
    findGroup (groupObjectives db c q) t =
      (if ((nonArchivedObjectives db c q none).filter
          (fun o => jsTrim o.title = t)).isEmpty then none
       else some ⟨(((nonArchivedObjectives db c q none).filter
              (fun o => jsTrim o.title = t)).map (fun o => o.percentObj.getD 0)).sum,
            ((nonArchivedObjectives db c q none).filter
              (fun o => jsTrim o.title = t)).length,
            (((nonArchivedObjectives db c q none).filter
              (fun o => jsTrim o.title = t)).map
                (fun o => (krsOfObjective db o.id).length)).sum⟩) ∧
    calculateObjectiveRankingsGrouped scenarioE 1 1 = [⟨"Increase NPS", 60, 3⟩] := by
  constructor
  · unfold groupObjectives
    rw [findGroup_foldl db (nonArchivedObjectives db c q none) [] t]
    by_cases he : ((nonArchivedObjectives db c q none).filter
        (fun o => jsTrim o.title = t)).isEmpty
    · simp [he, findGroup]
    · simp [he, findGroup]
  · have ht : jsTrim "Increase NPS" = "Increase NPS" := by decide
    norm_num [scenarioE, calculateObjectiveRankingsGrouped, groupObjectives,
      nonArchivedObjectives, krsOfObjective, objMatches, addToGroups, ht, jsRound,
      List.insertionSort, List.orderedInsert, groupRankDesc]

/-- Claim C10: the current-progress computation depends only on each key
result's latest-timestamped check-in — rewriting the attainment of any
non-latest check-in (fields otherwise preserved) leaves the result unchanged,
so earlier check-ins are never consulted as a fallback — and a key result
whose latest check-in has a null attainment is excluded entirely: with KR₁
holding 40 % (earlier) and null (latest) and KR₂ holding 30 %, the result is
30, the mean over KR₂ alone. -/
theorem claim_C10 (db db' : Db) (c q : Nat) (u : Option Nat)
    (f : Checkin → Checkin)
    (hobj : db'.objectives = db.objectives)
    (hkrs : db'.keyResults = db.keyResults)
    (hch : db'.checkins = db.checkins.map f)
    (hqr : db'.quarterResults = db.quarterResults)
    (hkey : ∀ ci, (f ci).keyResultId = ci.keyResultId)
    (hco : ∀ ci, (f ci).companyId = ci.companyId)
    (htime : ∀ ci, (f ci).createdAt = ci.createdAt)
    (hlatest : ∀ kr ∈ qualifyingKRs db c q u, ∀ ci,
      latestCheckin ((scopedCheckins db c ((qualifyingKRs db c q u).map (·.id))).filter
        (fun x => x.keyResultId == kr.id)) = some ci →
      (f ci).attainmentPct = ci.attainmentPct) :
    calculateQuarterProgress db' c q u = calculateQuarterProgress db c q u ∧
    calculateQuarterProgress scenarioNullLatest 1 1 none = 30 := by
  refine ⟨progress_map_invariant db db' c q u f hobj hkrs hch hqr hkey hco htime
    hlatest, ?_⟩
  have h1 : lastAttainments scenarioNullLatest 1 1 none = [(30 : ℚ)] := by decide
  have h2 : (qualifyingObjectives scenarioNullLatest 1 1 none).isEmpty = false := by
    decide
  have h3 : (qualifyingKRs scenarioNullLatest 1 1 none).isEmpty = false := by decide
  have h4 : (scopedCheckins scenarioNullLatest 1
      ((qualifyingKRs scenarioNullLatest 1 1 none).map (·.id))).isEmpty = false := by
    decide
  rw [calculateQuarterProgress]
  simp [h1, h2, h3, h4, jsRound]
  norm_num

/-- Claim C10 witness: the invariance and the exclusion scenario instantiated
with the identity rewriting on the concrete data. -/
theorem claim_C10_witness :
    calculateQuarterProgress scenarioNullLatest 1 1 none =
      calculateQuarterProgress scenarioNullLatest 1 1 none ∧
    calculateQuarterProgress scenarioNullLatest 1 1 none = 30 :=
  claim_C10 scenarioNullLatest scenarioNullLatest 1 1 none (fun ci => ci) rfl rfl
    (by simp) rfl (fun _ => rfl) (fun _ => rfl) (fun _ => rfl) (fun _ _ _ _ => rfl)
